import Mathlib

/-!
Verification development for the notes_search repository.

Shallow embedding of the pipeline code in
  src/services/llm.py   (claim filter and claim scorer),
  src/services/x_api.py (metrics-aware fetcher and rate-limit tracker),
  src/app.py            (ranker and threshold filter),
  src/utils/io.py       (CSV exporter),
with theorems settling claims C1 to C10 about it.

Modelling conventions, used throughout:
 - Python dicts whose key set is fixed by the code become structures with
   Option fields (a `none` field is an absent key); the open-ended CSV rows
   of utils/io.py become association lists.
 - Remote HTTP collaborators are oracles: a call-shaped function or a list
   of scripted responses consumed one request at a time.
 - `time.sleep` does not block anything in a pure model; where a claim
   mentions sleeping, the slept durations are accumulated in a log.
 - Machine integers are Int/Nat; the only floating-point values (the
   log-dampened scores of app.py) are embedded as real numbers.
 - Strings are matched with ASCII semantics: the regex classes \d, \s, \w
   of llm.py are modelled as ASCII digits, ASCII whitespace and ASCII
   word characters, and str.lower / str.strip act on those; this is exact
   on every ASCII text and diverges from CPython only on exotic Unicode.
-/

/-! ## JSON scalar values

Scores and verdicts coming back from the remote classifier are JSON
scalars; `pyInt` is the behaviour of the Python builtin `int(...)` on
them: an `Option Int` whose `none` is a raised exception. -/

inductive JVal where
  | jint (n : Int)
  | jstr (s : String)
  | jbool (b : Bool)
  | jnull
deriving DecidableEq

/-- ASCII whitespace as Python strip() and the regex class \s see it. -/
def pyWs (c : Char) : Bool :=
  c = ' ' || c = '\t' || c = '\n' || c = '\r' || c = Char.ofNat 11 || c = Char.ofNat 12

/-- Python str.strip() (on ASCII whitespace). -/
def pyStrip (s : List Char) : List Char :=
  ((s.dropWhile pyWs).reverse.dropWhile pyWs).reverse

/-- Decimal digit run to a natural number; `none` when empty or non-digit. -/
def digitsToNat (cs : List Char) : Option Nat :=
  if cs = [] ∨ ¬ cs.all Char.isDigit then none
  else some (cs.foldl (fun a c => a * 10 + (c.toNat - 48)) 0)

/-- Python `int(s)` for a string: strip whitespace, optional sign, digits.
(Digit-group underscores, accepted by CPython, are not modelled; no claim
touches them.) -/
def pyIntOfString (s : String) : Option Int :=
  match pyStrip s.toList with
  | [] => none
  | c :: rest =>
    if c = '-' then (digitsToNat rest).map (fun n => -(n : Int))
    else if c = '+' then (digitsToNat rest).map (fun n => (n : Int))
    else (digitsToNat (c :: rest)).map (fun n => (n : Int))

/-- Python `int(v)` on a JSON scalar; `none` models the raised exception. -/
def pyInt (v : JVal) : Option Int :=
  match v with
  | .jint n => some n
  | .jbool b => some (if b then 1 else 0)
  | .jstr s => pyIntOfString s
  | .jnull => none

/-! ## Batching

`_chunks` of llm.py and `_chunk_ids` of x_api.py both slice a list into
consecutive runs of `n` elements.  The fuel recursion keeps the definition
kernel-reducible; `chunksOf` instantiates the fuel with the list length,
which always suffices.  (For `n = 0` CPython raises inside `range`; both
call sites pass 12 or 100.) -/

def chunksAux (n : Nat) : Nat → List α → List (List α)
  | 0, _ => []
  | _, [] => []
  | fuel + 1, x :: xs => (x :: xs).take n :: chunksAux n fuel ((x :: xs).drop n)

def chunksOf (n : Nat) (l : List α) : List (List α) :=
  chunksAux n l.length l

theorem chunksAux_congr (n : Nat) (hn : 0 < n) :
    ∀ (f g : Nat) (l : List α), l.length ≤ f → l.length ≤ g →
      chunksAux n f l = chunksAux n g l := by
  intro f
  induction f with
  | zero =>
    intro g l hf _
    have : l = [] := List.length_eq_zero.mp (Nat.le_zero.mp hf)
    subst this
    cases g <;> rfl
  | succ f ih =>
    intro g l hf hg
    cases l with
    | nil => cases g <;> rfl
    | cons x xs =>
      cases g with
      | zero => exact absurd hg (by simp)
      | succ g =>
        show ((x :: xs).take n :: _) = ((x :: xs).take n :: _)
        have hlen : ((x :: xs).drop n).length ≤ xs.length := by
          simp only [List.length_drop, List.length_cons]
          omega
        have hxf : xs.length ≤ f := by simpa using hf
        have hxg : xs.length ≤ g := by simpa using hg
        rw [ih g _ (le_trans hlen hxf) (le_trans hlen hxg)]

theorem chunksOf_ne_nil (n : Nat) (hn : 0 < n) (l : List α) (h : l ≠ []) :
    chunksOf n l = l.take n :: chunksOf n (l.drop n) := by
  cases l with
  | nil => exact absurd rfl h
  | cons x xs =>
    show chunksAux n (xs.length + 1) (x :: xs) = _
    show _ :: chunksAux n xs.length ((x :: xs).drop n)
        = _ :: chunksAux n ((x :: xs).drop n).length ((x :: xs).drop n)
    have hlen : ((x :: xs).drop n).length ≤ xs.length := by
      simp only [List.length_drop, List.length_cons]; omega
    rw [chunksAux_congr n hn xs.length ((x :: xs).drop n).length _ hlen le_rfl]

theorem chunksOf_flatten_aux (n : Nat) (hn : 0 < n) :
    ∀ (k : Nat) (l : List α), l.length ≤ k → (chunksOf n l).flatten = l := by
  intro k
  induction k with
  | zero =>
    intro l hl
    have : l = [] := List.length_eq_zero.mp (Nat.le_zero.mp hl)
    subst this; rfl
  | succ k ih =>
    intro l hl
    cases l with
    | nil => rfl
    | cons x xs =>
      rw [chunksOf_ne_nil n hn _ (by simp)]
      have hdrop : ((x :: xs).drop n).length ≤ k := by
        simp only [List.length_drop, List.length_cons]
        have : xs.length ≤ k := by simpa using hl
        omega
      simp only [List.flatten_cons, ih _ hdrop]
      exact List.take_append_drop n (x :: xs)

theorem chunksOf_flatten (n : Nat) (hn : 0 < n) (l : List α) :
    (chunksOf n l).flatten = l :=
  chunksOf_flatten_aux n hn l.length l le_rfl

/-! ## The Post record

A post is a JSON object from the eligible-posts endpoint that later stages
enrich in place (x_api.py lines 122-131 and 264-290, llm.py lines 189 and
218-220).  Each field is one dict key; `none` is an absent key.  `id` and
`text` are read as `p.get("id", "")` / `p.get("text", "")` everywhere, so
a missing key is identified with the empty string.  The display-only keys
`reach_score`, `_final_score` and `retweet_score` (floats written by
app.py but re-derivable from the fields below) are not stored; see
`finalScore` and `do_analyze`. -/

structure PublicMetrics where
  retweetCount : Option Int := none
  likeCount : Option Int := none
  replyCount : Option Int := none
  quoteCount : Option Int := none
deriving DecidableEq

structure Post where
  id : String := ""
  text : String := ""
  publicMetrics : Option PublicMetrics := none
  tweetRetweetCount : Option Int := none
  tweetLikeCount : Option Int := none
  tweetReplyCount : Option Int := none
  tweetQuoteCount : Option Int := none
  authorId : Option String := none
  authorFollowersCount : Option Int := none
  metricsHydrated : Option Bool := none
  metricsReason : Option String := none
  llmFactCheckReason : Option String := none
  checkableScore : Option Int := none
  importanceScore : Option Int := none
  llmScoringReason : Option String := none
deriving DecidableEq

/-! ## services/llm.py — heuristics (lines 26-48)

NUMERIC_REGEX searches for a digit, a percent or dollar sign, the words
million / billion / thousand, or per-cent / per-capita with an optional
single whitespace (the alternatives with repeated digits are subsumed by
the bare digit match, so an un-anchored search succeeds exactly when one
of these occurs).  CLAIMY_VERBS searches for one of the listed verbs
delimited by word boundaries. -/

def containsSeq (w : List Char) : List Char → Bool
  | [] => w.isPrefixOf []
  | c :: rest => w.isPrefixOf (c :: rest) || containsSeq w rest

/-- Match `a`, then at most one whitespace, then `b`, at this position. -/
def optWsAt (a b : List Char) (s : List Char) : Bool :=
  a.isPrefixOf s &&
    (b.isPrefixOf (s.drop a.length) ||
      match s.drop a.length with
      | c :: r => pyWs c && b.isPrefixOf r
      | [] => false)

def containsOptWs (a b : List Char) : List Char → Bool
  | [] => false
  | c :: rest => optWsAt a b (c :: rest) || containsOptWs a b rest

/-- Word character, the regex class \w (ASCII model). -/
def wordChar (c : Char) : Bool := c.isAlphanum || c = '_'

/-- The word `w` occurs at the head of `s` with a word boundary after it. -/
def wordAt (w : List Char) (s : List Char) : Bool :=
  w.isPrefixOf s &&
    match s.drop w.length with
    | [] => true
    | c :: _ => !wordChar c

/-- Un-anchored search for any of the words `ws` between word boundaries;
`prevIsWord` records whether the character before the current position is
a word character. -/
def wordSearch (ws : List (List Char)) : Bool → List Char → Bool
  | _, [] => false
  | prevIsWord, c :: rest =>
    (!prevIsWord && ws.any (fun w => wordAt w (c :: rest))) ||
      wordSearch ws (wordChar c) rest

/-- The alternatives of CLAIMY_VERBS with the optional-s forms expanded.
The apostrophe of the last verb is spelled via its code point. -/
def claimyWords : List (List Char) :=
  [ "said".toList, "says".toList, "claim".toList, "claims".toList,
    "stated".toList, "announced".toList, "mandate".toList, "mandates".toList,
    "banned".toList, "require".toList, "requires".toList,
    "raise".toList, "raises".toList, "cut".toList, "cuts".toList,
    "will".toList, ['w', 'o', 'n', Char.ofNat 39, 't'] ]

/-- NUMERIC_REGEX.search on an already stripped text (case-insensitive via
lowering; `\d{1,3}(,\d{3})+`, `\d+`, `(\.\d+)?` and `\d{4}` all reduce to
the presence of a digit for an un-anchored search). -/
def numericHit (t : List Char) : Bool :=
  let s := t.map Char.toLower
  s.any Char.isDigit || s.any (· = '%') || s.any (· = '$') ||
    containsSeq "million".toList s || containsSeq "billion".toList s ||
    containsSeq "thousand".toList s ||
    containsOptWs "per".toList "cent".toList s ||
    containsOptWs "per".toList "capita".toList s

/-- CLAIMY_VERBS.search (case-insensitive via lowering). -/
def claimyVerbHit (t : List Char) : Bool :=
  wordSearch claimyWords false (t.map Char.toLower)

/-- The fixed keyword list of looks_claimy (llm.py lines 43-46). -/
def politicalKeywords : List String :=
  [ "tax", "vote", "election", "redistrict", "crime", "unemployment",
    "inflation", "immigration", "vaccine", "border", "budget", "billion",
    "percent", "gun", "abortion" ]

def keywordHit (t : List Char) : Bool :=
  politicalKeywords.any (fun k => containsSeq k.toList (t.map Char.toLower))

/-- looks_claimy (llm.py lines 35-48), translated branch for branch. -/
def looks_claimy (text : String) : Bool :=
  if text = "" then false
  else
    let t := pyStrip text.toList
    if t.length < 30 then false
    else if numericHit t || claimyVerbHit t then true
    else if keywordHit t then true
    else false

/-! ## services/llm.py — batch filter (lines 160-191)

The Anthropic exchange of `_call_json_array` is an oracle
`resp : List (String × String) → List FilterVerdict`: it receives the
`(id, text)` pairs of a batch (llm.py line 170; the 320-character
truncation happens inside the prompt rendering and does not change which
posts are sent) and returns the parsed JSON array, already restricted to
its dict elements — a hard parse failure is the empty list (llm.py line
112).  The credential check and the re-raised request exception (llm.py
lines 67 and 95) abort the call before any output exists and are outside
the model. -/

structure FilterVerdict where
  id : String := ""
  isFactCheckable : Option JVal := none
  reason : String := ""
deriving DecidableEq

def BATCH_SIZE : Nat := 12

def to_llm_items (b : List Post) : List (String × String) :=
  b.map (fun p => (p.id, p.text))

/-- rmap lookup: the dict comprehension keyed on `str(r.get("id", ""))`
keeps the last record for a repeated id (llm.py line 173). -/
def lookupVerdict (rs : List FilterVerdict) (pid : String) : Option FilterVerdict :=
  rs.reverse.find? (fun r => r.id = pid)

/-- `bool(rmap[pid].get("is_fact_checkable") is True)` — only the JSON
literal `true` counts (llm.py line 180). -/
def verdictPositive (rs : List FilterVerdict) (pid : String) : Bool :=
  match lookupVerdict rs pid with
  | some r => r.isFactCheckable = some (JVal.jbool true)
  | none => false

def heuristicReason : String := "Heuristic: numeric/policy/claim-like language."

/-- The inner `for p in batch` loop of filter_posts_with_llm
(llm.py lines 174-190). -/
def filterBatchGo (rs : List FilterVerdict) : List Post → List Post
  | [] => []
  | p :: ps =>
    let fr : Bool × String :=
      match lookupVerdict rs p.id with
      | some r => (decide (r.isFactCheckable = some (JVal.jbool true)), r.reason)
      | none => (false, "")
    let fr : Bool × String :=
      if !fr.1 && looks_claimy p.text then
        (true, if fr.2 = "" then heuristicReason else fr.2)
      else fr
    if fr.1 then { p with llmFactCheckReason := some fr.2 } :: filterBatchGo rs ps
    else filterBatchGo rs ps

def filterChunksGo (resp : List (String × String) → List FilterVerdict) :
    List (List Post) → List Post
  | [] => []
  | b :: bs => filterBatchGo (resp (to_llm_items b)) b ++ filterChunksGo resp bs

/-- filter_posts_with_llm (llm.py lines 160-191).  An empty input yields
an empty output through the empty chunk list, matching the early return. -/
def filter_posts_with_llm (resp : List (String × String) → List FilterVerdict)
    (posts : List Post) : List Post :=
  filterChunksGo resp (chunksOf BATCH_SIZE posts)

/-! ## services/llm.py — batch scorer (lines 193-222) -/

structure ScoreRec where
  id : String := ""
  checkableScore : Option JVal := none
  importanceScore : Option JVal := none
  scoringReason : String := ""
deriving DecidableEq

/-- `rmap.get(pid, {})` with last-wins key collision (llm.py line 205);
the default record has both score keys absent and an empty reason, which
is exactly what the empty dict yields through `.get`. -/
def lookupScoreRec (rs : List ScoreRec) (pid : String) : ScoreRec :=
  (rs.reverse.find? (fun r => r.id = pid)).getD { id := pid }

/-- `int(r.get("checkable_score", 0))`: an absent key converts its default
0; a present JSON scalar converts through `pyInt`, whose `none` is the
exception caught at llm.py line 213. -/
def convScoreField (v : Option JVal) : Option Int :=
  match v with
  | none => some 0
  | some j => pyInt j

/-- `x if 1 <= x <= 10 else 0` (llm.py lines 216-217). -/
def clampScore (n : Int) : Int := if 1 ≤ n ∧ n ≤ 10 then n else 0

/-- One iteration of the scoring loop (llm.py lines 207-221): both int()
conversions sit in one try, so a failure of either zeroes both scores; the
clamp then acts on what survived (clamping the except-branch zeros is the
identity, written directly here). -/
def scoreOne (rs : List ScoreRec) (p : Post) : Post :=
  let r := lookupScoreRec rs p.id
  match convScoreField r.checkableScore, convScoreField r.importanceScore with
  | some cv, some iv =>
    { p with checkableScore := some (clampScore cv),
             importanceScore := some (clampScore iv),
             llmScoringReason := some r.scoringReason }
  | _, _ =>
    { p with checkableScore := some 0,
             importanceScore := some 0,
             llmScoringReason := some r.scoringReason }

def scoreBatchGo (rs : List ScoreRec) : List Post → List Post
  | [] => []
  | p :: ps => scoreOne rs p :: scoreBatchGo rs ps

def scoreChunksGo (resp : List (String × String) → List ScoreRec) :
    List (List Post) → List Post
  | [] => []
  | b :: bs => scoreBatchGo (resp (to_llm_items b)) b ++ scoreChunksGo resp bs

/-- score_posts_with_llm (llm.py lines 193-222). -/
def score_posts_with_llm (resp : List (String × String) → List ScoreRec)
    (posts : List Post) : List Post :=
  scoreChunksGo resp (chunksOf BATCH_SIZE posts)

/-! ## utils/io.py — CSV exporter

A row is an association list over string keys: the insertion-ordered dict
that a post renders to (values are their string renderings; only `id` and
`post_link`, plain strings already, are inspected by any claim).
`dictGet` / `dictSet` are dict access and assignment: get reads the first
matching key, set replaces in place or appends, as Python dicts do.
`save_posts_to_csv` returns `Except`: the `error` branch is the raised
RuntimeError, carrying no file at all — in the source the raise at line 21
precedes the `open` at line 40, so no file is created on that path.  The
returned path is the filename (os.path.abspath only prefixes the working
directory).  A CSV file is its header plus cell rows; csv round-trips
cells exactly, so quoting is not modelled. -/

def dictGet (r : List (String × String)) (k dflt : String) : String :=
  match r.find? (fun kv => kv.1 = k) with
  | some kv => kv.2
  | none => dflt

def dictSet (r : List (String × String)) (k v : String) : List (String × String) :=
  if r.any (fun kv => kv.1 = k) then
    r.map (fun kv => if kv.1 = k then (k, v) else kv)
  else r ++ [(k, v)]

def statusPrefix : String := "https://x.com/i/status/"

/-- add_links_to_rows (io.py lines 8-16): copy each row and, when the id
is non-empty, set the derived permalink. -/
def add_links_to_rows (posts : List (List (String × String))) :
    List (List (String × String)) :=
  posts.map (fun p =>
    let pid := dictGet p "id" ""
    if pid ≠ "" then dictSet p "post_link" (statusPrefix ++ pid) else p)

/-- Union of all row keys in first-seen order (io.py lines 24-28). -/
def unionKeys (rows : List (List (String × String))) : List String :=
  rows.foldl (fun acc r =>
    r.foldl (fun acc kv => if acc.contains kv.1 then acc else acc ++ [kv.1]) acc) []

def preferredFields : List String :=
  [ "id", "text", "post_link",
    "llm_fact_check_reason",
    "importance_score", "checkable_score", "llm_scoring_reason",
    "fact_check_questions", "search_keywords", "llm_aids_reason" ]

def csvFieldnames (rows : List (List (String × String))) : List String :=
  preferredFields ++ (unionKeys rows).filter (fun k => !preferredFields.contains k)

structure CsvFile where
  header : List String
  rows : List (List String)
deriving DecidableEq

/-- One DictWriter row: a cell per fieldname, the empty-string restval for
a key the row lacks; every row key occurs among the fieldnames, so the
extra-key error path of DictWriter is unreachable. -/
def writeRow (fieldnames : List String) (r : List (String × String)) : List String :=
  fieldnames.map (fun k => dictGet r k "")

/-- save_posts_to_csv (io.py lines 18-45). -/
def save_posts_to_csv (posts : List (List (String × String))) (filename : String) :
    Except String (String × CsvFile) :=
  let rows := add_links_to_rows posts
  if rows = [] then .error "No posts to save."
  else
    let fns := csvFieldnames rows
    .ok (filename, ⟨fns, rows.map (writeRow fns)⟩)

/-- Reading the tabular file back: each record pairs the header with its
cells, which is what csv.DictReader yields. -/
def readBackRows (f : CsvFile) : List (List (String × String)) :=
  f.rows.map (fun cells => f.header.zip cells)

/-! ## services/x_api.py — rate-limit tracker (lines 13-59)

Wall-clock time is an explicit integer parameter `now` (seconds); the
sleeps of a run do not advance it — no claim depends on elapsed time.
RATE_LIMIT_STATE, a process global in the source, is threaded as explicit
state per design note 9 of the spec. -/

structure RateLimitState where
  remaining : Option Int := none
  resetTime : Option Int := none
  lastChecked : Option Int := none
deriving DecidableEq

/-- The two rate-limit response headers, absent or an integer. -/
structure RateHeaders where
  remaining : Option Int := none
  reset : Option Int := none
deriving DecidableEq

/-- check_rate_limit_headers (x_api.py lines 30-46). -/
def check_rate_limit_headers (now : Int) (st : RateLimitState) (h : RateHeaders) :
    RateLimitState :=
  let st :=
    match h.remaining with
    | some r => { st with remaining := some r, lastChecked := some now }
    | none => st
  match h.reset with
  | some ts => { st with resetTime := some ts }
  | none => st

/-- should_skip_metrics_fetch (x_api.py lines 48-59).  The reason string
formats whole seconds; the float formatting of total_seconds is exact
because times are integral here. -/
def should_skip_metrics_fetch (now : Int) (st : RateLimitState) : Bool × String :=
  match st.remaining with
  | some rem =>
    if rem ≤ 5 then
      match st.resetTime with
      | some rt =>
        if now < rt then (true, s!"Rate limited. Resets in {rt - now}s")
        else (false, "")
      | none => (false, "")
    else (false, "")
  | none => (false, "")

/-! ## services/x_api.py — pagination loop (lines 61-142)

Each iteration of the `while True` loop issues one HTTP request; the
endpoint is an oracle list of responses consumed one per request.  An
exhausted list behaves like a request exception (the loop breaks). -/

inductive SearchResp where
  /-- 200 with a parsed JSON body: `data` and `meta.next_token` (an empty
  or absent token are both falsy, hence one `none`). -/
  | ok (hdrs : RateHeaders) (data : List Post) (nextToken : Option String)
  /-- 429; retry-after header optional. -/
  | tooMany (hdrs : RateHeaders) (retryAfter : Option Nat)
  /-- other non-200 status. -/
  | httpErr (hdrs : RateHeaders) (status : Nat)
  /-- the request or the .json() parse raised; headers were processed
  only when available before the raise. -/
  | exc (hdrs : Option RateHeaders)
deriving DecidableEq

/-- `wait_time` for a 429 page response: the retry-after header or the
fixed default 60 (x_api.py lines 101-103). -/
def wait429 (retryAfter : Option Nat) : Nat := retryAfter.getD 60

/-- Embedded-metrics pass over one page (x_api.py lines 122-130): a post
whose JSON carries public_metrics gets its counts copied out (missing
sub-keys default to 0) and is marked hydrated. -/
def markMetrics (p : Post) : Post :=
  match p.publicMetrics with
  | none => p
  | some m =>
    { p with tweetRetweetCount := some (m.retweetCount.getD 0),
             tweetLikeCount := some (m.likeCount.getD 0),
             tweetReplyCount := some (m.replyCount.getD 0),
             tweetQuoteCount := some (m.quoteCount.getD 0),
             metricsHydrated := some true }

/-- The loop state: accumulated posts, the pagination cursor, the number
of completed pages, the rate-limit tracker, and the log of sleeps. -/
structure FetchState where
  allPosts : List Post := []
  paginationToken : Option String := none
  pageCount : Nat := 0
  rate : RateLimitState := {}
  sleeps : List Nat := []
deriving DecidableEq

/-- The pagination loop of fetch_eligible_posts (x_api.py lines 83-142),
one constructor case per way an iteration can go. -/
def fetchPagesLoop (now : Int) (pages : Nat) : List SearchResp → FetchState → FetchState
  | [], st => st
  | r :: rs, st =>
    match r with
    | .exc h =>
      match h with
      | some h => { st with rate := check_rate_limit_headers now st.rate h }
      | none => st
    | .tooMany h ra =>
      fetchPagesLoop now pages rs
        { st with rate := check_rate_limit_headers now st.rate h,
                  sleeps := st.sleeps ++ [wait429 ra] }
    | .httpErr h _ => { st with rate := check_rate_limit_headers now st.rate h }
    | .ok h data next =>
      let st := { st with rate := check_rate_limit_headers now st.rate h }
      if data = [] then st
      else
        let st := { st with allPosts := st.allPosts ++ data.map markMetrics,
                            pageCount := st.pageCount + 1 }
        if pages ≤ st.pageCount then st
        else
          let st := { st with paginationToken := next }
          match next with
          | none => st
          | some _ => fetchPagesLoop now pages rs { st with sleeps := st.sleeps ++ [1] }

/-! ## services/x_api.py — secondary metrics hydration (lines 177-310)

The /2/tweets bulk-lookup endpoint is again an oracle list of responses,
one consumed per HTTP attempt.  `id_map` maps each non-empty id to the
post dict object itself and is built once; a repeated id keeps its first
position among the keys while the value (the aliased object) is the last
such post, so an update lands on the last occurrence.  Updates mutate the
shared dict objects, modelled by updating the list entry in place. -/

structure TweetMetricsRec where
  likeCount : Option Int := none
  retweetCount : Option Int := none
  replyCount : Option Int := none
  quoteCount : Option Int := none
deriving DecidableEq

/-- One element of the lookup response `data` array.  Metric values are
JSON integers (through `_safe_int`, the identity on them). -/
structure TweetRec where
  id : String := ""
  publicMetrics : Option TweetMetricsRec := none
  authorId : Option String := none
deriving DecidableEq

/-- One element of `includes.users`; `id := none` is an absent key (a key
the user map then stores as Python None, never matching a string lookup).
followersCount flattens `(u.get("public_metrics") or {}).get("followers_count", 0)`. -/
structure UserRec where
  id : Option String := none
  followersCount : Option Int := none
deriving DecidableEq

inductive LookupResp where
  | ok (hdrs : RateHeaders) (data : List TweetRec) (users : List UserRec)
  | tooMany (hdrs : RateHeaders) (retryAfter : Option Int)
  /-- non-200, non-429; `detail` is the rendered error detail of the body. -/
  | httpErr (hdrs : RateHeaders) (status : Nat) (detail : String)
  /-- the request (headers unseen) or a later body parse (headers seen)
  raised; `msg` stands for repr(e). -/
  | exc (hdrs : Option RateHeaders) (msg : String)
deriving DecidableEq

def rateLimitedMsg (n : Int) : String := s!"Rate limited. Try again in {n}s"

def tweetsErrMsg (status : Nat) (detail : String) : String :=
  s!"/2/tweets {status}: {detail}"

def tweetsExcMsg (m : String) : String := s!"/2/tweets exception: {m}"

/-- The distinct non-empty post ids in first-seen order: the keys of
id_map (x_api.py lines 205-206). -/
def distinctIds (posts : List Post) : List String :=
  posts.foldl (fun acc p =>
    if p.id ≠ "" ∧ ¬ acc.contains p.id then acc ++ [p.id] else acc) []

/-- Whether id_map has key `tid`. -/
def hasId (posts : List Post) (tid : String) : Bool :=
  tid ≠ "" && posts.any (fun p => p.id = tid)

def updateFirstWithId (tid : String) (f : Post → Post) : List Post → List Post
  | [] => []
  | p :: ps => if p.id = tid then f p :: ps else p :: updateFirstWithId tid f ps

/-- Apply `f` to the post `id_map[tid]` aliases: the last list entry with
that id. -/
def updateLastWithId (tid : String) (f : Post → Post) (posts : List Post) : List Post :=
  (updateFirstWithId tid f posts.reverse).reverse

/-- The per-tweet metric assignment (x_api.py lines 264-276). -/
def metricsUpdate (t : TweetRec) (p : Post) : Post :=
  let pm := t.publicMetrics.getD {}
  { p with tweetLikeCount := some (pm.likeCount.getD 0),
           tweetRetweetCount := some (pm.retweetCount.getD 0),
           tweetReplyCount := some (pm.replyCount.getD 0),
           tweetQuoteCount := some (pm.quoteCount.getD 0),
           authorId := t.authorId.orElse (fun _ => p.authorId) }

/-- The data pass over a successful lookup response, threading
hydrated_any (x_api.py lines 264-276). -/
def applyData (data : List TweetRec) (acc : List Post × Bool) : List Post × Bool :=
  data.foldl (fun (acc : List Post × Bool) t =>
    if hasId acc.1 t.id then (updateLastWithId t.id (metricsUpdate t) acc.1, true)
    else acc) acc

/-- user_map lookup: dict comprehension keyed on `u.get("id")`, last
record wins; the lookup key is `aid or ""` (x_api.py lines 279-283). -/
def userLookup (users : List UserRec) (k : String) : Option UserRec :=
  users.reverse.find? (fun u => u.id = some k)

/-- The followers pass over a successful lookup response
(x_api.py lines 279-290). -/
def applyUsers (users : List UserRec) (data : List TweetRec) (posts : List Post) :
    List Post :=
  data.foldl (fun posts t =>
    match userLookup users ((t.authorId.getD "")) with
    | some u =>
      if hasId posts t.id then
        updateLastWithId t.id
          (fun p => { p with authorFollowersCount := some (u.followersCount.getD 0) }) posts
      else posts
    | none => posts) posts

/-- Outcome of the retry loop for one batch (x_api.py lines 231-300):
either move on to the next batch or return from the whole function (the
too-long-wait guard at lines 247-249). -/
inductive BatchOutcome where
  | nextBatch (posts : List Post) (hydratedAny : Bool) (lastError : String)
      (rate : RateLimitState) (resps : List LookupResp)
  | earlyReturn (posts : List Post) (hydratedAny : Bool) (lastError : String)
      (rate : RateLimitState)
deriving DecidableEq

/-- The `while retry_count < max_retries` loop for one batch, fuel = the
remaining attempts; an exhausted oracle list behaves like the request
itself raising. -/
def attemptLoop (now : Int) : Nat → List Post → Bool → String → RateLimitState →
    List LookupResp → BatchOutcome
  | 0, posts, hy, lastError, rate, resps => .nextBatch posts hy lastError rate resps
  | fuel + 1, posts, hy, lastError, rate, resps =>
    match resps with
    | [] => attemptLoop now fuel posts hy (tweetsExcMsg "no response") rate []
    | r :: rs =>
      match r with
      | .exc h msg =>
        let rate := match h with
          | some h => check_rate_limit_headers now rate h
          | none => rate
        attemptLoop now fuel posts hy (tweetsExcMsg msg) rate rs
      | .tooMany h ra =>
        let rate := check_rate_limit_headers now rate h
        let retryAfter := ra.getD 60
        let lastError := rateLimitedMsg retryAfter
        if 300 < retryAfter then .earlyReturn posts hy lastError rate
        else attemptLoop now fuel posts hy lastError rate rs
      | .httpErr h status detail =>
        .nextBatch posts hy (tweetsErrMsg status detail)
          (check_rate_limit_headers now rate h) rs
      | .ok h data users =>
        let rate := check_rate_limit_headers now rate h
        let (posts, hy) := applyData data (posts, hy)
        let posts := applyUsers users data posts
        .nextBatch posts hy lastError rate rs

/-- Result of the outer `for batch in _chunk_ids(ids, 100)` loop
(x_api.py lines 220-303); `early` records whether the function returned
from inside the loop, which skips the no-metrics fix-up at line 305. -/
structure HydrateResult where
  posts : List Post
  hydratedAny : Bool
  lastError : String
  rate : RateLimitState
  early : Bool
deriving DecidableEq

def batchesLoop (now : Int) : List (List String) → List Post → Bool → String →
    RateLimitState → List LookupResp → HydrateResult
  | [], posts, hy, lastError, rate, _ => ⟨posts, hy, lastError, rate, false⟩
  | _b :: bs, posts, hy, lastError, rate, resps =>
    let (skip, reason) := should_skip_metrics_fetch now rate
    if skip then ⟨posts, hy, reason, rate, false⟩
    else
      match attemptLoop now 3 posts hy lastError rate resps with
      | .earlyReturn posts hy lastError rate => ⟨posts, hy, lastError, rate, true⟩
      | .nextBatch posts hy lastError rate resps =>
        batchesLoop now bs posts hy lastError rate resps

/-- hydrate_public_metrics_verbose (x_api.py lines 189-310) without the
re-run of the credential check (its caller fetch_eligible_posts has
already validated the same four credentials, so that path cannot fire
there; see `hydrate_public_metrics_verbose` below for the guarded form).
The ids batch contents are consumed by the oracle implicitly: which posts
get updated is decided by the response data. -/
def hydrateRaw (now : Int) (resps : List LookupResp) (rate : RateLimitState)
    (posts : List Post) : HydrateResult :=
  if posts = [] then ⟨posts, false, "no posts", rate, false⟩
  else
    let ids := distinctIds posts
    if ids = [] then ⟨posts, false, "missing tweet ids", rate, false⟩
    else
      let r := batchesLoop now (chunksOf 100 ids) posts false "" rate resps
      if r.early then r
      else if ¬ r.hydratedAny ∧ r.lastError = "" then
        { r with lastError := "no metrics returned (check API access tier)" }
      else r

/-- hydrate_public_metrics_verbose with the `_oauth` credential check of
x_api.py line 203. -/
def hydrate_public_metrics_verbose (apiKey apiSecret accessToken accessTokenSecret : String)
    (now : Int) (resps : List LookupResp) (rate : RateLimitState)
    (posts : List Post) : Except String HydrateResult :=
  if apiKey = "" ∨ apiSecret = "" ∨ accessToken = "" ∨ accessTokenSecret = "" then
    .error "Missing X API credentials."
  else .ok (hydrateRaw now resps rate posts)

/-- The `for p in all_posts[:1]` annotation (x_api.py lines 151-153 and
163-166): only the first post is touched. -/
def updateHead (f : Post → Post) : List Post → List Post
  | [] => []
  | p :: ps => f p :: ps

/-- fetch_eligible_posts (x_api.py lines 61-175).

Parameters test_mode and max_results only shape the HTTP query that the
response oracle already answers, so they are not repeated here; the
compute_reach branch (lines 168-173), which writes the display-only float
`reach_score` via compute_reach_score and is invoked with
compute_reach=False by the app, is likewise outside the model — no claim
mentions it.  The `Except.error` is the RuntimeError of `_oauth`
(line 22) for a blank credential. -/
def fetch_eligible_posts (apiKey apiSecret accessToken accessTokenSecret : String)
    (pages : Nat) (fetchMetrics : Bool) (now : Int) (st0 : RateLimitState)
    (searchResps : List SearchResp) (lookupResps : List LookupResp) :
    Except String (List Post) :=
  if apiKey = "" ∨ apiSecret = "" ∨ accessToken = "" ∨ accessTokenSecret = "" then
    .error "Missing X API credentials."
  else
    let fin := fetchPagesLoop now pages searchResps { rate := st0 }
    let allPosts := fin.allPosts
    let needsMetrics := fetchMetrics && !allPosts.isEmpty &&
      !allPosts.any (fun p => p.metricsHydrated.getD false)
    if needsMetrics then
      let sk := should_skip_metrics_fetch now fin.rate
      if sk.1 then
        .ok (updateHead
          (fun p => { p with metricsHydrated := some false, metricsReason := some sk.2 })
          allPosts)
      else
        let r := hydrateRaw now lookupResps fin.rate allPosts
        .ok (updateHead
          (fun p =>
            let p := { p with metricsHydrated := some r.hydratedAny }
            if ¬ r.hydratedAny ∧ r.lastError ≠ "" then
              { p with metricsReason := some r.lastError }
            else p)
          r.posts)
    else .ok allPosts

/-! ## app.py — threshold filter, engagement score, ranking (lines 96-148)

The two UI options that gate the threshold filter are one shared pair of
session-state fields; `HRConfig` is that pair.  The float arithmetic of
the scores is embedded in the reals (0.5, 0.3, 0.2 and the logarithms as
their exact values). -/

structure HRConfig where
  enableHighReachFilter : Bool
  minRetweetsThreshold : Int
deriving DecidableEq

/-- `int(p.get("tweet_retweet_count", 0) or 0)` — absent key or Python
None both read 0. -/
def rtcOf (p : Post) : Int := p.tweetRetweetCount.getD 0

/-- _apply_high_reach_filter (app.py lines 96-101). -/
def apply_high_reach_filter (cfg : HRConfig) (posts : List Post) : List Post :=
  if !cfg.enableHighReachFilter then posts
  else posts.filter (fun p => cfg.minRetweetsThreshold ≤ rtcOf p)

/-- _retweet_score (app.py lines 104-112): 0 for no retweets, else a
log-dampened 0..10 value, `math.log1p(rts) / math.log(1000.0) * 10`
capped at 10. -/
noncomputable def retweet_score (p : Post) : ℝ :=
  let rts := rtcOf p
  if rts ≤ 0 then 0
  else min 10 (Real.log (1 + (rts : ℝ)) / Real.log 1000 * 10)

/-- The final-score blend (app.py lines 136-141).  The code stores this
value under the `_final_score` key of each scored post and sorts on
`x.get("_final_score", 0)`; every post entering the sort just had the key
set from exactly these fields, so the sort key is this function. -/
noncomputable def finalScore (p : Post) : ℝ :=
  0.5 * ((p.importanceScore.getD 0 : Int) : ℝ)
    + 0.3 * ((p.checkableScore.getD 0 : Int) : ℝ)
    + 0.2 * retweet_score p

/-! Python `sorted(key=..., reverse=True)` is a stable descending sort:
an element moves before another exactly when its key is strictly greater,
and equal-key elements keep their input order.  `insertD`/`sortD` is that
semantics as an insertion sort, generic in the key. -/

def insertD {α κ : Type} [LinearOrder κ] (key : α → κ) (x : α) : List α → List α
  | [] => [x]
  | y :: ys => if key x < key y then y :: insertD key x ys else x :: y :: ys

def sortD {α κ : Type} [LinearOrder κ] (key : α → κ) (l : List α) : List α :=
  l.foldr (insertD key) []

/-- The ranking sort of _do_analyze (app.py line 144). -/
noncomputable def rankPosts (l : List Post) : List Post := sortD finalScore l

/-- _do_analyze (app.py lines 115-148).  The empty-fetch early return
(line 116-118) leaves the session state untouched and yields `none`; the
remote filter and scorer calls take their oracles.  The same `cfg` gates
the pre-scoring and the post-ranking threshold filter. -/
noncomputable def do_analyze (cfg : HRConfig)
    (fResp : List (String × String) → List FilterVerdict)
    (sResp : List (String × String) → List ScoreRec)
    (rawPosts : List Post) : Option (List Post) :=
  if rawPosts = [] then none
  else
    let analysisInput := apply_high_reach_filter cfg rawPosts
    let filtered := filter_posts_with_llm fResp analysisInput
    let scored := score_posts_with_llm sResp filtered
    let ranked := rankPosts scored
    some (apply_high_reach_filter cfg ranked)


/-! ## Dict-access lemmas for the exporter -/

theorem dictGet_map_set_other (r : List (String × String)) (k v k' d : String)
    (h : k' ≠ k) :
    dictGet (r.map (fun kv => if kv.1 = k then (k, v) else kv)) k' d
      = dictGet r k' d := by
  induction r with
  | nil => rfl
  | cons kv rest ih =>
    by_cases hk : kv.1 = k
    · unfold dictGet at ih ⊢
      rw [List.map_cons, if_pos hk,
        List.find?_cons_of_neg _ (by simp; exact fun hc => h hc.symm),
        List.find?_cons_of_neg _ (by simp [hk]; exact fun hc => h hc.symm)]
      exact ih
    · by_cases hk' : kv.1 = k'
      · unfold dictGet
        rw [List.map_cons, if_neg hk,
          List.find?_cons_of_pos _ (by simp [hk']),
          List.find?_cons_of_pos _ (by simp [hk'])]
      · unfold dictGet at ih ⊢
        rw [List.map_cons, if_neg hk,
          List.find?_cons_of_neg _ (by simp [hk']),
          List.find?_cons_of_neg _ (by simp [hk'])]
        exact ih

theorem dictGet_append_single_other (r : List (String × String)) (k v k' d : String)
    (h : k' ≠ k) :
    dictGet (r ++ [(k, v)]) k' d = dictGet r k' d := by
  induction r with
  | nil =>
    unfold dictGet
    rw [List.nil_append, List.find?_cons_of_neg _ (by simp; exact fun hc => h hc.symm)]
  | cons kv rest ih =>
    by_cases hk' : kv.1 = k'
    · unfold dictGet
      rw [List.cons_append, List.find?_cons_of_pos _ (by simp [hk']),
        List.find?_cons_of_pos _ (by simp [hk'])]
    · unfold dictGet at ih ⊢
      rw [List.cons_append, List.find?_cons_of_neg _ (by simp [hk']),
        List.find?_cons_of_neg _ (by simp [hk'])]
      exact ih

theorem dictGet_map_set_same (r : List (String × String)) (k v d : String)
    (ha : r.any (fun kv => kv.1 = k)) :
    dictGet (r.map (fun kv => if kv.1 = k then (k, v) else kv)) k d = v := by
  induction r with
  | nil => simp at ha
  | cons kv rest ih =>
    by_cases hk : kv.1 = k
    · unfold dictGet
      rw [List.map_cons, if_pos hk, List.find?_cons_of_pos _ (by simp)]
    · have ha' : rest.any (fun kv => kv.1 = k) := by
        simpa [List.any_cons, hk] using ha
      unfold dictGet at ih ⊢
      rw [List.map_cons, if_neg hk, List.find?_cons_of_neg _ (by simp [hk])]
      exact ih ha'

theorem dictGet_append_single_same (r : List (String × String)) (k v d : String)
    (ha : ¬ r.any (fun kv => kv.1 = k)) :
    dictGet (r ++ [(k, v)]) k d = v := by
  induction r with
  | nil =>
    unfold dictGet
    rw [List.nil_append, List.find?_cons_of_pos _ (by simp)]
  | cons kv rest ih =>
    simp only [List.any_cons, Bool.or_eq_true, not_or, decide_eq_true_eq] at ha
    unfold dictGet at ih ⊢
    rw [List.cons_append, List.find?_cons_of_neg _ (by simp [ha.1])]
    exact ih (by simp [ha.2])

theorem dictGet_dictSet_same (r : List (String × String)) (k v d : String) :
    dictGet (dictSet r k v) k d = v := by
  unfold dictSet
  by_cases ha : r.any (fun kv => kv.1 = k)
  · simp only [ha, if_true]
    exact dictGet_map_set_same r k v d ha
  · simp only [ha, if_false]
    exact dictGet_append_single_same r k v d ha

theorem dictGet_dictSet_other (r : List (String × String)) (k v k' d : String)
    (h : k' ≠ k) : dictGet (dictSet r k v) k' d = dictGet r k' d := by
  unfold dictSet
  by_cases ha : r.any (fun kv => kv.1 = k)
  · simp only [ha, if_true]
    exact dictGet_map_set_other r k v k' d h
  · simp only [ha, if_false]
    exact dictGet_append_single_other r k v k' d h

theorem dictGet_zip_map (ks : List String) (f : String → String) (k d : String)
    (hk : k ∈ ks) : dictGet (ks.zip (ks.map f)) k d = f k := by
  induction ks with
  | nil => cases hk
  | cons k0 rest ih =>
    by_cases h0 : k0 = k
    · subst h0
      unfold dictGet
      rw [List.map_cons, List.zip_cons_cons, List.find?_cons_of_pos _ (by simp)]
    · have hmem : k ∈ rest := by
        cases hk with
        | head => exact absurd rfl h0
        | tail _ hm => exact hm
      unfold dictGet at ih ⊢
      rw [List.map_cons, List.zip_cons_cons, List.find?_cons_of_neg _ (by simp [h0])]
      exact ih hmem

/-- Reading a written record back recovers every cell whose column is in
the header. -/
theorem readBack_cell (fns : List String) (r : List (String × String))
    (k : String) (hk : k ∈ fns) :
    dictGet (fns.zip (writeRow fns r)) k "" = dictGet r k "" := by
  unfold writeRow
  exact dictGet_zip_map fns (fun k => dictGet r k "") k "" hk

/-- The id cells of the exported rows, read back, are the id cells of the
input posts, position for position. -/
theorem readBack_id_cells (posts : List (List (String × String))) :
    ((add_links_to_rows posts).map (fun lrow =>
      dictGet ((csvFieldnames (add_links_to_rows posts)).zip
        (writeRow (csvFieldnames (add_links_to_rows posts)) lrow)) "id" ""))
      = posts.map (fun p => dictGet p "id" "") := by
  have hid : "id" ∈ csvFieldnames (add_links_to_rows posts) := by
    unfold csvFieldnames
    exact List.mem_append_left _ (by unfold preferredFields; simp)
  have step1 : ((add_links_to_rows posts).map (fun lrow =>
      dictGet ((csvFieldnames (add_links_to_rows posts)).zip
        (writeRow (csvFieldnames (add_links_to_rows posts)) lrow)) "id" ""))
      = (add_links_to_rows posts).map (fun lrow => dictGet lrow "id" "") := by
    apply List.map_congr_left
    intro lrow _
    exact readBack_cell _ _ _ hid
  rw [step1]
  unfold add_links_to_rows
  rw [List.map_map]
  apply List.map_congr_left
  intro p _
  simp only [Function.comp]
  by_cases hp : dictGet p "id" "" ≠ ""
  · rw [if_pos hp]
    exact dictGet_dictSet_other _ _ _ _ _ (by decide)
  · rw [if_neg hp]

/-- C8: calling the exporter with an empty post sequence raises the
empty-export error (the RuntimeError of io.py line 21) and creates no
file: the raise precedes the `open` of io.py line 40, which the model
reflects by the error branch carrying no `CsvFile` value at all. -/
theorem c8_empty_export_errors (filename : String) :
    save_posts_to_csv [] filename = .error "No posts to save." := rfl

/-- C9: for every non-empty post sequence, the export succeeds and
reading the tabular file back yields the same ids — cell for cell, in
order, hence the same id set — and every read-back row with a non-empty
id carries the permalink `https://x.com/i/status/` followed by that id. -/
theorem c9_export_roundtrip (posts : List (List (String × String)))
    (filename : String) (h : posts ≠ []) :
    ∃ csv : CsvFile,
      save_posts_to_csv posts filename = .ok (filename, csv) ∧
      (readBackRows csv).map (fun r => dictGet r "id" "")
        = posts.map (fun p => dictGet p "id" "") ∧
      (∀ s : String,
        s ∈ (readBackRows csv).map (fun r => dictGet r "id" "") ↔
        s ∈ posts.map (fun p => dictGet p "id" "")) ∧
      ∀ r ∈ readBackRows csv, dictGet r "id" "" ≠ "" →
        dictGet r "post_link" "" = statusPrefix ++ dictGet r "id" "" := by
  have hrows : add_links_to_rows posts ≠ [] := by
    unfold add_links_to_rows
    simpa using h
  have hcells : (readBackRows ⟨csvFieldnames (add_links_to_rows posts),
      (add_links_to_rows posts).map (writeRow (csvFieldnames (add_links_to_rows posts)))⟩).map
        (fun r => dictGet r "id" "") = posts.map (fun p => dictGet p "id" "") := by
    unfold readBackRows
    rw [List.map_map, List.map_map]
    exact readBack_id_cells posts
  refine ⟨⟨csvFieldnames (add_links_to_rows posts),
      (add_links_to_rows posts).map (writeRow (csvFieldnames (add_links_to_rows posts)))⟩,
    ?_, hcells, fun s => by rw [hcells], ?_⟩
  · unfold save_posts_to_csv
    rw [if_neg hrows]
  · intro r hr hne
    unfold readBackRows at hr
    rw [List.map_map] at hr
    simp only [List.mem_map, Function.comp] at hr
    obtain ⟨lrow, hlrow, hrzip⟩ := hr
    subst hrzip
    have hid : "id" ∈ csvFieldnames (add_links_to_rows posts) := by
      unfold csvFieldnames
      exact List.mem_append_left _ (by unfold preferredFields; simp)
    have hlink : "post_link" ∈ csvFieldnames (add_links_to_rows posts) := by
      unfold csvFieldnames
      exact List.mem_append_left _ (by unfold preferredFields; simp)
    rw [readBack_cell _ _ _ hid] at hne ⊢
    rw [readBack_cell _ _ _ hlink]
    unfold add_links_to_rows at hlrow
    simp only [List.mem_map] at hlrow
    obtain ⟨p, _, hpl⟩ := hlrow
    by_cases hp : dictGet p "id" "" ≠ ""
    · rw [if_pos hp] at hpl
      subst hpl
      rw [dictGet_dictSet_same]
      rw [dictGet_dictSet_other _ _ _ _ _ (by decide)]
    · rw [if_neg hp] at hpl
      subst hpl
      push_neg at hp
      exact absurd hp hne

/-- C9 witness: the round-trip applied at a concrete one-post export. -/
theorem c9_export_roundtrip_witness :
    ([[("id", "42"), ("text", "hello")]] : List (List (String × String))) ≠ [] ∧
    (∃ csv : CsvFile,
      save_posts_to_csv [[("id", "42"), ("text", "hello")]] "out.csv" = .ok ("out.csv", csv) ∧
      (readBackRows csv).map (fun r => dictGet r "id" "")
        = [[("id", "42"), ("text", "hello")]].map (fun p => dictGet p "id" "") ∧
      (∀ s : String,
        s ∈ (readBackRows csv).map (fun r => dictGet r "id" "") ↔
        s ∈ [[("id", "42"), ("text", "hello")]].map (fun p => dictGet p "id" "")) ∧
      ∀ r ∈ readBackRows csv, dictGet r "id" "" ≠ "" →
        dictGet r "post_link" "" = statusPrefix ++ dictGet r "id" "") :=
  ⟨by decide, c9_export_roundtrip [[("id", "42"), ("text", "hello")]] "out.csv" (by decide)⟩


/-! ## Claim C2 — the filter keeps exactly the remote-positive or
heuristically claim-worthy posts, in order -/

/-- Spec-side heuristic, in the words of claim C2: trimmed text at least
30 characters long and containing a numeric/currency/percentage pattern,
a claim-asserting verb, or a politically salient keyword. -/
def claimworthySpec (t : String) : Bool :=
  let s := pyStrip t.toList
  decide (30 ≤ s.length) && (numericHit s || claimyVerbHit s || keywordHit s)

/-- Spec-side keep condition of claim C2: a positive remote verdict for
the id, or the deterministic heuristic on the text. -/
def keepSpecPred (rs : List FilterVerdict) (p : Post) : Bool :=
  verdictPositive rs p.id || claimworthySpec p.text

/-- The reason string a kept post carries: the remote rationale when the
remote verdict was positive; otherwise the remote rationale if non-empty,
the fixed heuristic message if empty. -/
def filterReasonSpec (rs : List FilterVerdict) (p : Post) : String :=
  let r0 := match lookupVerdict rs p.id with
    | some r => r.reason
    | none => ""
  if verdictPositive rs p.id then r0
  else if r0 = "" then heuristicReason else r0

/-- The sequential-if heuristic looks_claimy equals its disjunctive spec
form. -/
theorem looks_claimy_eq_spec (t : String) : looks_claimy t = claimworthySpec t := by
  by_cases h0 : t = ""
  · subst h0; decide
  · simp only [looks_claimy, claimworthySpec, if_neg h0]
    set s := pyStrip t.toList with hs
    by_cases h30 : s.length < 30
    · have hn : ¬ (30 ≤ s.length) := by omega
      simp [if_pos h30, hn]
    · have h30x : 30 ≤ s.length := by omega
      rw [if_neg h30]
      cases hnu : numericHit s <;>
        cases hc : claimyVerbHit s <;>
          cases hk : keywordHit s <;> simp [h30x, hnu, hc, hk]

/-- One filter batch is exactly filter-then-annotate with the spec-side
keep condition. -/
theorem filterBatchGo_eq_spec (rs : List FilterVerdict) (b : List Post) :
    filterBatchGo rs b
      = (b.filter (keepSpecPred rs)).map
          (fun p => { p with llmFactCheckReason := some (filterReasonSpec rs p) }) := by
  induction b with
  | nil => rfl
  | cons p ps ih =>
    rcases hl : lookupVerdict rs p.id with _ | r
    · have hv : verdictPositive rs p.id = false := by
        unfold verdictPositive; rw [hl]
      cases hc : looks_claimy p.text
      · have hcw : claimworthySpec p.text = false := by
          rw [← looks_claimy_eq_spec]; exact hc
        have hkeep : keepSpecPred rs p = false := by
          simp [keepSpecPred, hv, hcw]
        simp only [filterBatchGo, hl]
        simp only [ih]
        simp [hc, hkeep, List.filter_cons]
      · have hcw : claimworthySpec p.text = true := by
          rw [← looks_claimy_eq_spec]; exact hc
        have hkeep : keepSpecPred rs p = true := by
          simp [keepSpecPred, hv, hcw]
        have hreason : filterReasonSpec rs p = heuristicReason := by
          simp [filterReasonSpec, hl, hv]
        simp only [filterBatchGo, hl]
        simp only [ih]
        simp [hc, hkeep, hreason, List.filter_cons]
    · by_cases hb : r.isFactCheckable = some (JVal.jbool true)
      · have hv : verdictPositive rs p.id = true := by
          unfold verdictPositive; rw [hl]; simp [hb]
        have hkeep : keepSpecPred rs p = true := by
          simp [keepSpecPred, hv]
        have hreason : filterReasonSpec rs p = r.reason := by
          simp [filterReasonSpec, hl, hv]
        simp only [filterBatchGo, hl]
        simp only [ih]
        simp [hb, hkeep, hreason, List.filter_cons]
      · have hv : verdictPositive rs p.id = false := by
          unfold verdictPositive; rw [hl]; simp [hb]
        cases hc : looks_claimy p.text
        · have hcw : claimworthySpec p.text = false := by
            rw [← looks_claimy_eq_spec]; exact hc
          have hkeep : keepSpecPred rs p = false := by
            simp [keepSpecPred, hv, hcw]
          simp only [filterBatchGo, hl]
          simp only [ih]
          simp [hb, hc, hkeep, List.filter_cons]
        · have hcw : claimworthySpec p.text = true := by
            rw [← looks_claimy_eq_spec]; exact hc
          have hkeep : keepSpecPred rs p = true := by
            simp [keepSpecPred, hv, hcw]
          have hreason : filterReasonSpec rs p
              = (if r.reason = "" then heuristicReason else r.reason) := by
            simp [filterReasonSpec, hl, hv]
          simp only [filterBatchGo, hl]
          simp only [ih]
          simp [hb, hc, hkeep, hreason, List.filter_cons]

/-- C2: filter_posts_with_llm returns exactly those input posts, in input
order within and across batches, for which the batch response carries a
positive is_fact_checkable verdict for their id, or (that verdict absent
or not positive) the deterministic heuristic holds of their text: trimmed
length at least 30 and a numeric/currency/percentage pattern, a
claim-asserting verb, or a fixed politically salient keyword.  Kept posts
only gain the reason annotation; rejected posts are dropped from the
output, not flagged. -/
theorem c2_filter_keeps_exactly (resp : List (String × String) → List FilterVerdict)
    (posts : List Post) :
    filter_posts_with_llm resp posts
      = (chunksOf BATCH_SIZE posts).flatMap (fun b =>
          (b.filter (keepSpecPred (resp (to_llm_items b)))).map
            (fun p => { p with llmFactCheckReason := some (filterReasonSpec (resp (to_llm_items b)) p) })) := by
  unfold filter_posts_with_llm
  generalize chunksOf BATCH_SIZE posts = bs
  induction bs with
  | nil => rfl
  | cons b bs ih =>
    simp only [filterChunksGo, List.flatMap_cons, filterBatchGo_eq_spec, ih]

/-! ## Claims C3 and C10 — score normalization and its coupling -/

theorem scoreBatchGo_eq_map (rs : List ScoreRec) (b : List Post) :
    scoreBatchGo rs b = b.map (scoreOne rs) := by
  induction b with
  | nil => rfl
  | cons p ps ih => simp only [scoreBatchGo, List.map_cons, ih]

/-- The scorer is the per-post conversion mapped over every batch in
order: no post is dropped or reordered. -/
theorem score_posts_with_llm_eq_flatMap
    (resp : List (String × String) → List ScoreRec) (posts : List Post) :
    score_posts_with_llm resp posts
      = (chunksOf BATCH_SIZE posts).flatMap
          (fun b => b.map (scoreOne (resp (to_llm_items b)))) := by
  unfold score_posts_with_llm
  generalize chunksOf BATCH_SIZE posts = bs
  induction bs with
  | nil => rfl
  | cons b bs ih =>
    simp only [scoreChunksGo, List.flatMap_cons, scoreBatchGo_eq_map, ih]

/-- Erase the three fields the scorer writes. -/
def stripScoreFields (p : Post) : Post :=
  { p with checkableScore := none, importanceScore := none, llmScoringReason := none }

theorem stripScoreFields_scoreOne (rs : List ScoreRec) (p : Post) :
    stripScoreFields (scoreOne rs p) = stripScoreFields p := by
  simp only [scoreOne]
  rcases hc : convScoreField (lookupScoreRec rs p.id).checkableScore with _ | cv <;>
    rcases hi : convScoreField (lookupScoreRec rs p.id).importanceScore with _ | iv <;>
      simp [stripScoreFields]

/-- Scoring keeps every input post, in order (the posts coincide once the
written score fields are erased). -/
theorem score_posts_with_llm_keeps_posts
    (resp : List (String × String) → List ScoreRec) (posts : List Post) :
    (score_posts_with_llm resp posts).map stripScoreFields
      = posts.map stripScoreFields := by
  rw [score_posts_with_llm_eq_flatMap]
  have h : ∀ bs : List (List Post),
      ((bs.flatMap (fun b => b.map (scoreOne (resp (to_llm_items b))))).map stripScoreFields)
        = (bs.flatMap id).map stripScoreFields := by
    intro bs
    induction bs with
    | nil => rfl
    | cons b bs ih =>
      simp only [List.flatMap_cons, List.map_append, ih, List.map_map, id]
      congr 1
      apply List.map_congr_left
      intro p _
      exact stripScoreFields_scoreOne _ p
  rw [h]
  have : (chunksOf BATCH_SIZE posts).flatMap id = posts := by
    rw [List.flatMap_id]
    exact chunksOf_flatten BATCH_SIZE (by decide) posts
  rw [this]

/-- C3 as amended: score_posts_with_llm maps every post, in order, to the
same post with both scores and the reason set; each score equals the
clamp-to-1..10-else-0 of its converted remote value when BOTH remote
conversions succeed (an absent key converting its default 0), and both
scores are 0 when either conversion raises; in particular -5, 0, 11
normalize to 0, 7 stays 7, and "abc" raises.  The original claim is
refuted at `c3_counterexample`: a failing conversion of one score also
zeroes the other, valid one. -/
theorem c3_score_normalization
    (resp : List (String × String) → List ScoreRec) (posts : List Post) :
    (score_posts_with_llm resp posts
      = (chunksOf BATCH_SIZE posts).flatMap
          (fun b => b.map (scoreOne (resp (to_llm_items b))))) ∧
    (∀ (rs : List ScoreRec) (p : Post) (cv iv : Int),
      convScoreField (lookupScoreRec rs p.id).checkableScore = some cv →
      convScoreField (lookupScoreRec rs p.id).importanceScore = some iv →
      (scoreOne rs p).checkableScore = some (clampScore cv) ∧
      (scoreOne rs p).importanceScore = some (clampScore iv)) ∧
    ((score_posts_with_llm resp posts).map stripScoreFields
      = posts.map stripScoreFields) ∧
    clampScore (-5) = 0 ∧ clampScore 0 = 0 ∧ clampScore 11 = 0 ∧ clampScore 7 = 7 ∧
    pyInt (.jstr "abc") = none ∧ convScoreField none = some 0 := by
  refine ⟨score_posts_with_llm_eq_flatMap resp posts, ?_,
    score_posts_with_llm_keeps_posts resp posts, by decide, by decide, by decide,
    by decide, by decide, by decide⟩
  intro rs p cv iv hcv hiv
  simp only [scoreOne]
  rw [hcv, hiv]
  exact ⟨rfl, rfl⟩

/-- The scripted score record the C3 witness answers with. -/
def c3witRec : ScoreRec :=
  { id := "x", checkableScore := some (.jint 7), importanceScore := some (.jint 3), scoringReason := "r" }

/-- C3 witness: a batch answering checkable 7 and importance 3 for the
post id sets exactly the clamped values. -/
theorem c3_score_normalization_witness :
    convScoreField (lookupScoreRec [c3witRec] "x").checkableScore = some 7 ∧
    convScoreField (lookupScoreRec [c3witRec] "x").importanceScore = some 3 ∧
    ((scoreOne [c3witRec] { id := "x" }).checkableScore = some (clampScore 7) ∧
     (scoreOne [c3witRec] { id := "x" }).importanceScore = some (clampScore 3)) :=
  ⟨by decide, by decide,
    (c3_score_normalization (fun _ => []) []).2.1 [c3witRec] { id := "x" } 7 3
      (by decide) (by decide)⟩

/-- The scripted scorer response of the C3 counterexample: a non-numeric
checkable_score next to a valid importance_score of 7. -/
def c3resp : List (String × String) → List ScoreRec :=
  fun _ => [{ id := "x", checkableScore := some (.jstr "abc"),
              importanceScore := some (.jint 7), scoringReason := "r" }]

/-- C3 counterexample: the remote importance_score is the integer 7, in
1..10, yet the post ends with importance_score 0 — the non-numeric
checkable_score "abc" in the same try block zeroes both — refuting the
claim that a remote value in 1..10 is kept. -/
theorem c3_counterexample :
    score_posts_with_llm c3resp [{ id := "x" }]
      = [{ id := "x", checkableScore := some 0, importanceScore := some 0,
           llmScoringReason := some "r" }] ∧
    ¬ ((score_posts_with_llm c3resp [{ id := "x" }]).map (fun p => p.importanceScore)
        = [some 7]) := by
  exact ⟨by decide, by decide⟩

/-- C10: the two conversions are coupled — whenever either remote score
fails integer conversion, scoreOne writes 0 to BOTH scores, even when the
other remote value is a valid 1..10 integer; and score_posts_with_llm is
scoreOne mapped over every batch. -/
theorem c10_coupled_score_zeroing :
    (∀ (resp : List (String × String) → List ScoreRec) (posts : List Post),
      score_posts_with_llm resp posts
        = (chunksOf BATCH_SIZE posts).flatMap
            (fun b => b.map (scoreOne (resp (to_llm_items b))))) ∧
    (∀ (rs : List ScoreRec) (p : Post),
      (convScoreField (lookupScoreRec rs p.id).checkableScore = none ∨
       convScoreField (lookupScoreRec rs p.id).importanceScore = none) →
      (scoreOne rs p).checkableScore = some 0 ∧
      (scoreOne rs p).importanceScore = some 0) := by
  refine ⟨score_posts_with_llm_eq_flatMap, ?_⟩
  intro rs p h
  simp only [scoreOne]
  rcases hc : convScoreField (lookupScoreRec rs p.id).checkableScore with _ | cv
  · exact ⟨rfl, rfl⟩
  · rcases hi : convScoreField (lookupScoreRec rs p.id).importanceScore with _ | iv
    · exact ⟨rfl, rfl⟩
    · rw [hc, hi] at h
      rcases h with h | h <;> cases h

/-- The scripted score record of the C10 witness. -/
def c10witRec : ScoreRec :=
  { id := "y", checkableScore := some (.jstr "abc"), importanceScore := some (.jint 7), scoringReason := "" }

/-- C10 witness: checkable "abc" with importance 7 zeroes both scores. -/
theorem c10_coupled_score_zeroing_witness :
    (convScoreField (lookupScoreRec [c10witRec] "y").checkableScore = none ∨
     convScoreField (lookupScoreRec [c10witRec] "y").importanceScore = none) ∧
    ((scoreOne [c10witRec] { id := "y" }).checkableScore = some 0 ∧
     (scoreOne [c10witRec] { id := "y" }).importanceScore = some 0) :=
  ⟨Or.inl (by decide),
    c10_coupled_score_zeroing.2 [c10witRec] { id := "y" } (Or.inl (by decide))⟩

/-! ## Claim C4 — the engagement (retweet) score -/

/-- C4: for every retweet count c at least 0 (counts are naturals here),
the engagement score is 0 at c = 0, equals
min(10, ln(1+c)/ln(1000) * 10) for c > 0, always lies in [0, 10], and is
monotonically non-decreasing in c. -/
theorem c4_engagement_score (c cx : Nat) :
    retweet_score { tweetRetweetCount := some ((0 : Nat) : Int) } = 0 ∧
    (0 < c → retweet_score { tweetRetweetCount := some ((c : Nat) : Int) }
      = min 10 (Real.log (1 + (c : ℝ)) / Real.log 1000 * 10)) ∧
    (0 ≤ retweet_score { tweetRetweetCount := some ((c : Nat) : Int) } ∧
      retweet_score { tweetRetweetCount := some ((c : Nat) : Int) } ≤ 10) ∧
    (c ≤ cx → retweet_score { tweetRetweetCount := some ((c : Nat) : Int) }
      ≤ retweet_score { tweetRetweetCount := some ((cx : Nat) : Int) }) := by
  have hbody : ∀ n : Nat, retweet_score { tweetRetweetCount := some ((n : Nat) : Int) }
      = if n = 0 then 0 else min 10 (Real.log (1 + (n : ℝ)) / Real.log 1000 * 10) := by
    intro n
    unfold retweet_score rtcOf
    simp only [Option.getD_some]
    by_cases hn : n = 0
    · subst hn; norm_num
    · have h1 : ¬ ((n : Int) ≤ 0) := by
        have : 0 < n := Nat.pos_of_ne_zero hn
        omega
      rw [if_neg h1, if_neg hn]
      norm_num
  have hlogpos : 0 < Real.log 1000 := Real.log_pos (by norm_num)
  have hnonneg : ∀ n : Nat, (0 : ℝ) ≤ min 10 (Real.log (1 + (n : ℝ)) / Real.log 1000 * 10) := by
    intro n
    apply le_min (by norm_num)
    apply mul_nonneg _ (by norm_num)
    apply div_nonneg _ (le_of_lt hlogpos)
    apply Real.log_nonneg
    have : (0 : ℝ) ≤ (n : ℝ) := Nat.cast_nonneg n
    linarith
  refine ⟨by rw [hbody 0]; norm_num, ?_, ?_, ?_⟩
  · intro hc
    rw [hbody c, if_neg (Nat.pos_iff_ne_zero.mp hc)]
  · rw [hbody c]
    by_cases hc : c = 0
    · subst hc; norm_num
    · rw [if_neg hc]
      exact ⟨hnonneg c, min_le_left _ _⟩
  · intro hle
    rw [hbody c, hbody cx]
    by_cases hc : c = 0
    · subst hc
      simp only [if_pos rfl]
      by_cases hcx : cx = 0
      · subst hcx; norm_num
      · rw [if_neg hcx]
        exact hnonneg cx
    · have hcx : cx ≠ 0 := by
        intro h; subst h; exact hc (Nat.le_zero.mp hle)
      rw [if_neg hc, if_neg hcx]
      apply min_le_min le_rfl
      have hlog : Real.log (1 + (c : ℝ)) ≤ Real.log (1 + (cx : ℝ)) := by
        rw [Real.log_le_log_iff (by positivity) (by positivity)]
        have : (c : ℝ) ≤ (cx : ℝ) := Nat.cast_le.mpr hle
        linarith
      have h10 : (0 : ℝ) ≤ 10 := by norm_num
      apply mul_le_mul_of_nonneg_right _ h10
      gcongr

/-- C4 witness: the closed-form value at 3 and monotonicity from 3 to 7. -/
theorem c4_engagement_score_witness :
    0 < 3 ∧ 3 ≤ 7 ∧
    retweet_score { tweetRetweetCount := some ((3 : Nat) : Int) }
      = min 10 (Real.log (1 + ((3 : Nat) : ℝ)) / Real.log 1000 * 10) ∧
    retweet_score { tweetRetweetCount := some ((3 : Nat) : Int) }
      ≤ retweet_score { tweetRetweetCount := some ((7 : Nat) : Int) } :=
  ⟨by norm_num, by norm_num, (c4_engagement_score 3 7).2.1 (by norm_num),
   (c4_engagement_score 3 7).2.2.2 (by norm_num)⟩

/-! ## Claim C5 — ranking is a stable descending sort -/

theorem insertD_perm {α κ : Type} [LinearOrder κ] (key : α → κ) (x : α) (s : List α) :
    (insertD key x s).Perm (x :: s) := by
  induction s with
  | nil => exact List.Perm.refl _
  | cons y ys ih =>
    unfold insertD
    by_cases h : key x < key y
    · rw [if_pos h]
      exact (ih.cons y).trans (List.Perm.swap x y ys)
    · rw [if_neg h]

theorem sortD_perm {α κ : Type} [LinearOrder κ] (key : α → κ) (l : List α) :
    (sortD key l).Perm l := by
  induction l with
  | nil => exact List.Perm.refl _
  | cons x xs ih =>
    exact (insertD_perm key x (sortD key xs)).trans (ih.cons x)

theorem insertD_sorted {α κ : Type} [LinearOrder κ] (key : α → κ) (x : α) (s : List α)
    (hs : s.Pairwise (fun a b => key b ≤ key a)) :
    (insertD key x s).Pairwise (fun a b => key b ≤ key a) := by
  induction s with
  | nil => simp [insertD]
  | cons y ys ih =>
    rcases List.pairwise_cons.mp hs with ⟨hy, hys⟩
    by_cases h : key x < key y
    · rw [insertD, if_pos h]
      refine List.pairwise_cons.mpr ⟨?_, ih hys⟩
      intro z hz
      rcases List.mem_cons.mp ((insertD_perm key x ys).mem_iff.mp hz) with rfl | hzys
      · exact le_of_lt h
      · exact hy z hzys
    · rw [insertD, if_neg h]
      refine List.pairwise_cons.mpr ⟨?_, hs⟩
      intro z hz
      rcases List.mem_cons.mp hz with rfl | hzys
      · exact le_of_not_lt h
      · exact le_trans (hy z hzys) (le_of_not_lt h)

theorem sortD_sorted {α κ : Type} [LinearOrder κ] (key : α → κ) (l : List α) :
    (sortD key l).Pairwise (fun a b => key b ≤ key a) := by
  induction l with
  | nil => simp [sortD]
  | cons x xs ih => exact insertD_sorted key x (sortD key xs) ih

open Classical in
/-- The sublist of `l` whose elements have sort key exactly `k` (the
classical decision procedure stands in for float equality). -/
noncomputable def keyFilter {α κ : Type} (key : α → κ) (k : κ) (l : List α) : List α :=
  l.filter (fun a => decide (key a = k))

theorem keyFilter_insertD {α κ : Type} [LinearOrder κ] (key : α → κ) (k : κ)
    (x : α) (s : List α) :
    keyFilter key k (insertD key x s) = keyFilter key k (x :: s) := by
  induction s with
  | nil => rfl
  | cons y ys ih =>
    unfold insertD
    by_cases h : key x < key y
    · rw [if_pos h]
      by_cases hy : key y = k
      · have hx : ¬ (key x = k) := by
          intro hx
          rw [hx, ← hy] at h
          exact absurd (hx ▸ hy ▸ h) (lt_irrefl _)
        simp only [keyFilter, List.filter_cons] at ih ⊢
        simp [hy, hx] at ih ⊢
        exact ih
      · simp only [keyFilter, List.filter_cons] at ih ⊢
        simp [hy] at ih ⊢
        exact ih
    · rw [if_neg h]

theorem keyFilter_sortD {α κ : Type} [LinearOrder κ] (key : α → κ) (k : κ) (l : List α) :
    keyFilter key k (sortD key l) = keyFilter key k l := by
  induction l with
  | nil => rfl
  | cons x xs ih =>
    show keyFilter key k (insertD key x (sortD key xs)) = _
    rw [keyFilter_insertD]
    simp only [keyFilter, List.filter_cons] at ih ⊢
    rw [ih]

/-- C5: the ranking step is a permutation of its input, sorted by final
score descending, and stable — for every score value k, the subsequence
of posts with final score k is unchanged, so two posts with identical
final scores keep their relative fetch order. -/
theorem c5_ranking_stable (l : List Post) (k : ℝ) :
    (rankPosts l).Perm l ∧
    (rankPosts l).Pairwise (fun a b => finalScore b ≤ finalScore a) ∧
    keyFilter finalScore k (rankPosts l) = keyFilter finalScore k l :=
  ⟨sortD_perm finalScore l, sortD_sorted finalScore l, keyFilter_sortD finalScore k l⟩

/-! ## Claim C7 — a 429 page response retries the same page -/

/-- The observable pagination state: accumulated posts, cursor, completed
pages (the rate tracker and sleep log aside). -/
def fetchView (st : FetchState) : List Post × Option String × Nat :=
  (st.allPosts, st.paginationToken, st.pageCount)

/-- The pagination loop never reads the rate tracker or sleep log: its
observable outcome depends only on the observable state. -/
theorem fetchPagesLoop_view_congr (now : Int) (pages : Nat) :
    ∀ (rs : List SearchResp) (st stx : FetchState), fetchView st = fetchView stx →
      fetchView (fetchPagesLoop now pages rs st)
        = fetchView (fetchPagesLoop now pages rs stx) := by
  intro rs
  induction rs with
  | nil => intro st stx h; exact h
  | cons r rs ih =>
    intro st stx h
    rcases st with ⟨a, t, c, rt, sl⟩
    rcases stx with ⟨ax, tx, cx, rtx, slx⟩
    simp only [fetchView, Prod.mk.injEq] at h
    obtain ⟨ha, ht, hc⟩ := h
    subst ha; subst ht; subst hc
    cases r with
    | exc ho => cases ho <;> simp [fetchPagesLoop, fetchView]
    | tooMany h0 ra =>
      simp only [fetchPagesLoop]
      exact ih _ _ (by simp [fetchView])
    | httpErr h0 s => simp [fetchPagesLoop, fetchView]
    | ok h0 data next =>
      simp only [fetchPagesLoop]
      by_cases hd : data = []
      · simp [hd, fetchView]
      · rw [if_neg hd, if_neg hd]
        by_cases hp : pages ≤ c + 1
        · simp [hp, fetchView]
        · rw [if_neg hp, if_neg hp]
          cases next with
          | none => simp [fetchView]
          | some tok => exact ih _ _ (by simp [fetchView])

/-- Inserting a 429 response anywhere in the response stream leaves the
accumulated posts, the cursor and the completed-page count unchanged. -/
theorem fetchPagesLoop_429_transparent (now : Int) (pages : Nat) (h : RateHeaders)
    (ra : Option Nat) :
    ∀ (pre post : List SearchResp) (st : FetchState),
      fetchView (fetchPagesLoop now pages (pre ++ SearchResp.tooMany h ra :: post) st)
        = fetchView (fetchPagesLoop now pages (pre ++ post) st) := by
  intro pre
  induction pre with
  | nil =>
    intro post st
    simp only [List.nil_append]
    show fetchView (fetchPagesLoop now pages post _) = _
    exact fetchPagesLoop_view_congr now pages post _ _ (by simp [fetchView])
  | cons r pre ih =>
    intro post st
    simp only [List.cons_append]
    cases r with
    | exc ho => rfl
    | tooMany h0 ra0 =>
      simp only [fetchPagesLoop]
      exact ih post _
    | httpErr h0 s => rfl
    | ok h0 data next =>
      simp only [fetchPagesLoop]
      by_cases hd : data = []
      · simp [hd]
      · rw [if_neg hd, if_neg hd]
        by_cases hp : pages ≤ st.pageCount + 1
        · simp [hp]
        · rw [if_neg hp, if_neg hp]
          cases next with
          | none => rfl
          | some tok => exact ih post _

/-- C7: a 429 page response makes the loop sleep for the server-advised
retry-after (default 60 when the header is absent) and retry the same
page: the iteration leaves cursor, completed-page count and accumulated
posts untouched (only the rate tracker and the sleep log change), and a
429 inserted anywhere in the response stream never consumes a page-count
slot — the loop still accumulates exactly the pages it would have
accumulated without it. -/
theorem c7_rate_limited_page_retry (now : Int) (pages : Nat) (h : RateHeaders)
    (ra : Option Nat) (rs pre post : List SearchResp) (st : FetchState) :
    (fetchPagesLoop now pages (SearchResp.tooMany h ra :: rs) st
      = fetchPagesLoop now pages rs
          { st with rate := check_rate_limit_headers now st.rate h,
                    sleeps := st.sleeps ++ [wait429 ra] }) ∧
    wait429 ra = ra.getD 60 ∧
    fetchView (fetchPagesLoop now pages (pre ++ SearchResp.tooMany h ra :: post) st)
      = fetchView (fetchPagesLoop now pages (pre ++ post) st) :=
  ⟨rfl, rfl, fetchPagesLoop_429_transparent now pages h ra pre post st⟩

/-! ## Claim C6 — the two threshold-filter application points share one
toggle -/

/-- A below-threshold post (0 retweets). -/
def c6post : Post := { id := "low", text := "hello", tweetRetweetCount := some 0 }

/-- What `c6post` looks like after the filter and scorer stages under the
scripted oracles below. -/
def c6scored : Post :=
  { id := "low", text := "hello", tweetRetweetCount := some 0,
    llmFactCheckReason := some "ok", checkableScore := some 0,
    importanceScore := some 0, llmScoringReason := some "" }

/-- Scripted classifier: a positive verdict for the post. -/
def c6fresp : List (String × String) → List FilterVerdict :=
  fun _ => [{ id := "low", isFactCheckable := some (.jbool true), reason := "ok" }]

/-- Scripted scorer: no verdicts (scores default to 0). -/
def c6sresp : List (String × String) → List ScoreRec := fun _ => []

/-- C6 counterexample: no configuration applies the threshold filter at
one application point without the other.  In particular the behaviour the
claimed independence would allow — a post analysed (it enters the
pre-scoring set) yet removed from the displayed set by the post-ranking
filter — is unreachable: both points are gated by the one
enable_high_reach_filter flag with the one threshold. -/
theorem c6_counterexample :
    ¬ ∃ cfg : HRConfig,
      "low" ∈ (apply_high_reach_filter cfg [c6post]).map Post.id ∧
      "low" ∉ ((do_analyze cfg c6fresp c6sresp [c6post]).getD []).map Post.id := by
  rintro ⟨⟨en, th⟩, h1, h2⟩
  cases en with
  | false =>
    have e : do_analyze ⟨false, th⟩ c6fresp c6sresp [c6post] = some [c6scored] := rfl
    rw [e] at h2
    exact h2 (by decide)
  | true =>
    by_cases hth : th ≤ 0
    · have e1 : apply_high_reach_filter ⟨true, th⟩ [c6post] = [c6post] := by
        simp [apply_high_reach_filter, rtcOf, c6post, List.filter, hth]
      have e2 : apply_high_reach_filter ⟨true, th⟩ [c6scored] = [c6scored] := by
        simp [apply_high_reach_filter, rtcOf, c6scored, List.filter, hth]
      have e3 : do_analyze ⟨true, th⟩ c6fresp c6sresp [c6post] = some [c6scored] := by
        unfold do_analyze
        rw [if_neg (by decide)]
        rw [e1]
        have efs : rankPosts (score_posts_with_llm c6sresp
            (filter_posts_with_llm c6fresp [c6post])) = [c6scored] := rfl
        show some (apply_high_reach_filter ⟨true, th⟩
            (rankPosts (score_posts_with_llm c6sresp
              (filter_posts_with_llm c6fresp [c6post])))) = some [c6scored]
        rw [efs, e2]
      rw [e3] at h2
      exact h2 (by decide)
    · have e1 : apply_high_reach_filter ⟨true, th⟩ [c6post] = [] := by
        simp [apply_high_reach_filter, rtcOf, c6post, List.filter, hth]
      rw [e1] at h1
      simp at h1

/-- C6 as amended: the minimum-retweet threshold filter is applied at two
points — before the filter/score stages and again after ranking — but
both applications are gated by the same single toggle and threshold
(cfg appears identically at both points); disabled it passes posts
through, enabled it keeps exactly the posts at or above the threshold. -/
theorem c6_shared_toggle (cfg : HRConfig)
    (fResp : List (String × String) → List FilterVerdict)
    (sResp : List (String × String) → List ScoreRec)
    (raw : List Post) (hraw : raw ≠ []) :
    (do_analyze cfg fResp sResp raw
      = some (apply_high_reach_filter cfg
          (rankPosts (score_posts_with_llm sResp
            (filter_posts_with_llm fResp (apply_high_reach_filter cfg raw)))))) ∧
    (∀ (th : Int) (posts : List Post),
      apply_high_reach_filter ⟨false, th⟩ posts = posts) ∧
    (∀ (th : Int) (posts : List Post),
      apply_high_reach_filter ⟨true, th⟩ posts
        = posts.filter (fun p => th ≤ rtcOf p)) := by
  refine ⟨?_, fun th posts => rfl, fun th posts => rfl⟩
  unfold do_analyze
  rw [if_neg hraw]

/-- C6 witness: the amended theorem at a concrete configuration. -/
theorem c6_shared_toggle_witness :
    ([c6post] ≠ []) ∧
    ((do_analyze ⟨true, 25⟩ c6fresp c6sresp [c6post]
        = some (apply_high_reach_filter ⟨true, 25⟩
            (rankPosts (score_posts_with_llm c6sresp
              (filter_posts_with_llm c6fresp
                (apply_high_reach_filter ⟨true, 25⟩ [c6post])))))) ∧
      (∀ (th : Int) (posts : List Post),
        apply_high_reach_filter ⟨false, th⟩ posts = posts) ∧
      (∀ (th : Int) (posts : List Post),
        apply_high_reach_filter ⟨true, th⟩ posts
          = posts.filter (fun p => th ≤ rtcOf p))) :=
  ⟨by decide, c6_shared_toggle ⟨true, 25⟩ c6fresp c6sresp [c6post] (by decide)⟩

/-! ## Claim C1 — abandoned hydration flags only the first post -/

theorem rateLimitedMsg_ne_empty (n : Int) : rateLimitedMsg n ≠ "" := by
  unfold rateLimitedMsg
  intro h
  have hlen := congrArg String.length h
  simp [String.length_append] at hlen
  exact absurd hlen.2 (by decide)

/-- A post exactly as the search endpoint returns it in the scenario of
claim C1: no embedded public_metrics, no engagement-count keys, no
hydration flag or reason. -/
def rawPost (p : Post) : Prop :=
  p.publicMetrics = none ∧ p.tweetRetweetCount = none ∧ p.tweetLikeCount = none ∧
  p.tweetReplyCount = none ∧ p.tweetQuoteCount = none ∧
  p.metricsHydrated = none ∧ p.metricsReason = none

instance (p : Post) : Decidable (rawPost p) := by
  unfold rawPost
  infer_instance

/-- The `data` array of a page response. -/
def searchData : SearchResp → List Post
  | .ok _ data _ => data
  | _ => []

theorem markMetrics_raw (p : Post) (h : rawPost p) : markMetrics p = p := by
  unfold markMetrics
  rw [h.1]

/-- Pages of metric-free posts pass through the pagination loop
untouched: every accumulated post is still raw. -/
theorem fetchPagesLoop_raw (now : Int) (pages : Nat) :
    ∀ (rs : List SearchResp) (st : FetchState),
      (∀ r ∈ rs, ∀ p ∈ searchData r, rawPost p) →
      (∀ p ∈ st.allPosts, rawPost p) →
      ∀ p ∈ (fetchPagesLoop now pages rs st).allPosts, rawPost p := by
  intro rs
  induction rs with
  | nil => intro st _ hst; exact hst
  | cons r rs ih =>
    intro st hrs hst
    have hr : ∀ p ∈ searchData r, rawPost p := hrs r (by simp)
    have hrsx : ∀ r ∈ rs, ∀ p ∈ searchData r, rawPost p :=
      fun r hmem => hrs r (List.mem_cons_of_mem _ hmem)
    cases r with
    | exc ho => cases ho <;> exact hst
    | tooMany h0 ra => exact ih _ hrsx hst
    | httpErr h0 s => exact hst
    | ok h0 data next =>
      simp only [fetchPagesLoop]
      have hdata : ∀ p ∈ data, rawPost p := hr
      have hmarked : data.map markMetrics = data := by
        rw [List.map_congr_left (fun p hp => markMetrics_raw p (hdata p hp))]
        exact List.map_id' data
      have happ : ∀ p ∈ st.allPosts ++ data.map markMetrics, rawPost p := by
        rw [hmarked]
        intro p hp
        rcases List.mem_append.mp hp with h | h
        · exact hst p h
        · exact hdata p h
      by_cases hd : data = []
      · rw [if_pos hd]; exact hst
      · rw [if_neg hd]
        by_cases hp : pages ≤ st.pageCount + 1
        · rw [if_pos hp]
          exact happ
        · rw [if_neg hp]
          cases next with
          | none => exact happ
          | some tok => exact ih _ hrsx happ

/-- First lookup attempt answered 429 with retry-after above 300 seconds:
the retry loop returns from the whole function at once (the too-long-wait
guard of x_api.py lines 247-249), touching no post. -/
theorem attemptLoop_429_long (now : Int) (posts : List Post) (hy : Bool)
    (lastError : String) (rate : RateLimitState) (h429 : RateHeaders) (ra : Int)
    (rest : List LookupResp) (hra : 300 < ra) :
    attemptLoop now 3 posts hy lastError rate (LookupResp.tooMany h429 (some ra) :: rest)
      = .earlyReturn posts hy (rateLimitedMsg ra)
          (check_rate_limit_headers now rate h429) := by
  show attemptLoop now (2 + 1) posts hy lastError rate _ = _
  simp only [attemptLoop]
  rw [show ((some ra).getD 60) = ra from rfl]
  rw [if_pos hra]

/-- Hydration whose first batch is answered 429 with retry-after above
300 seconds abandons everything: posts unchanged, hydrated_any false, the
rate-limited reason string, an early return. -/
theorem hydrateRaw_429_long (now : Int) (rate : RateLimitState) (posts : List Post)
    (h429 : RateHeaders) (ra : Int) (rest : List LookupResp)
    (hne : posts ≠ []) (hids : distinctIds posts ≠ [])
    (hskip : (should_skip_metrics_fetch now rate).1 = false)
    (hra : 300 < ra) :
    hydrateRaw now (LookupResp.tooMany h429 (some ra) :: rest) rate posts
      = ⟨posts, false, rateLimitedMsg ra, check_rate_limit_headers now rate h429, true⟩ := by
  simp only [hydrateRaw]
  rw [if_neg hne, if_neg hids]
  rw [chunksOf_ne_nil 100 (by norm_num) _ hids]
  simp only [batchesLoop]
  rcases hsk : should_skip_metrics_fetch now rate with ⟨sk, rsn⟩
  rw [hsk] at hskip
  simp only at hskip
  subst hskip
  rw [attemptLoop_429_long now posts false "" rate h429 ra rest hra]
  simp

/-- Erase the two hydration-status fields (for comparing post lists
modulo the flag annotation). -/
def clearHydration (p : Post) : Post :=
  { p with metricsHydrated := none, metricsReason := none }

/-- The annotation fetch_eligible_posts writes after failed hydration
(x_api.py lines 163-166). -/
def flagAbandoned (msg : String) (p : Post) : Post :=
  { p with metricsHydrated := some false, metricsReason := some msg }

/-- Shape of the returned list when only the head is flagged: posts
unchanged modulo the annotation, all engagement counts at their default
0, no post hydrated, the head carrying flag false plus the reason, and
the tail carrying neither flag nor reason. -/
theorem updateHead_flag_props (A : List Post) (msg : String)
    (hA : ∀ p ∈ A, rawPost p) (hne : A ≠ []) :
    ((updateHead (flagAbandoned msg) A).map clearHydration = A.map clearHydration) ∧
    (∀ p ∈ updateHead (flagAbandoned msg) A,
      p.tweetRetweetCount.getD 0 = 0 ∧ p.tweetLikeCount.getD 0 = 0 ∧
      p.tweetReplyCount.getD 0 = 0 ∧ p.tweetQuoteCount.getD 0 = 0 ∧
      p.metricsHydrated ≠ some true) ∧
    ((updateHead (flagAbandoned msg) A).head?.map
        (fun p => (p.metricsHydrated, p.metricsReason)) = some (some false, some msg)) ∧
    (∀ p ∈ (updateHead (flagAbandoned msg) A).tail,
      p.metricsHydrated = none ∧ p.metricsReason = none) := by
  cases A with
  | nil => exact absurd rfl hne
  | cons a as =>
    have hraw_a := hA a (by simp)
    have hraw_as : ∀ p ∈ as, rawPost p := fun p hp => hA p (List.mem_cons_of_mem _ hp)
    refine ⟨?_, ?_, rfl, ?_⟩
    · show clearHydration _ :: as.map clearHydration = clearHydration a :: as.map clearHydration
      rfl
    · intro p hp
      rcases List.mem_cons.mp hp with rfl | hpas
      · refine ⟨?_, ?_, ?_, ?_, by simp [flagAbandoned]⟩
        · show a.tweetRetweetCount.getD 0 = 0
          rw [hraw_a.2.1]; rfl
        · show a.tweetLikeCount.getD 0 = 0
          rw [hraw_a.2.2.1]; rfl
        · show a.tweetReplyCount.getD 0 = 0
          rw [hraw_a.2.2.2.1]; rfl
        · show a.tweetQuoteCount.getD 0 = 0
          rw [hraw_a.2.2.2.2.1]; rfl
      · have hr := hraw_as p hpas
        refine ⟨by rw [hr.2.1]; rfl, by rw [hr.2.2.1]; rfl, by rw [hr.2.2.2.1]; rfl,
          by rw [hr.2.2.2.2.1]; rfl, by rw [hr.2.2.2.2.2.1]; simp⟩
    · intro p hp
      have hr := hraw_as p hp
      exact ⟨hr.2.2.2.2.2.1, hr.2.2.2.2.2.2⟩

/-- The fetch call of the C1 scenario returns normally with exactly the
accumulated pages, the first post flagged. -/
theorem fetch_429_long_main
    (k ks kt kts : String) (pages : Nat) (now : Int) (st0 : RateLimitState)
    (searchResps : List SearchResp) (h429 : RateHeaders) (ra : Int)
    (restLookups : List LookupResp)
    (hcred : ¬ (k = "" ∨ ks = "" ∨ kt = "" ∨ kts = ""))
    (hraw : ∀ r ∈ searchResps, ∀ p ∈ searchData r, rawPost p)
    (hne : (fetchPagesLoop now pages searchResps { rate := st0 }).allPosts ≠ [])
    (hids : distinctIds (fetchPagesLoop now pages searchResps { rate := st0 }).allPosts ≠ [])
    (hskip : (should_skip_metrics_fetch now
        (fetchPagesLoop now pages searchResps { rate := st0 }).rate).1 = false)
    (hra : 300 < ra) :
    fetch_eligible_posts k ks kt kts pages true now st0 searchResps
        (LookupResp.tooMany h429 (some ra) :: restLookups)
      = .ok (updateHead (flagAbandoned (rateLimitedMsg ra))
          (fetchPagesLoop now pages searchResps { rate := st0 }).allPosts) := by
  have hAraw : ∀ p ∈ (fetchPagesLoop now pages searchResps { rate := st0 }).allPosts,
      rawPost p :=
    fetchPagesLoop_raw now pages searchResps _ hraw (by intro p hp; simp at hp)
  simp only [fetch_eligible_posts]
  rw [if_neg hcred]
  have h1 : (fetchPagesLoop now pages searchResps { rate := st0 }).allPosts.isEmpty
      = false := by
    cases hAeq : (fetchPagesLoop now pages searchResps { rate := st0 }).allPosts with
    | nil => exact absurd hAeq hne
    | cons a as => rfl
  have h2 : ((fetchPagesLoop now pages searchResps { rate := st0 }).allPosts.any
      fun p => p.metricsHydrated.getD false) = false := by
    rw [List.any_eq_false]
    intro p hp
    rw [(hAraw p hp).2.2.2.2.2.1]
    decide
  rw [h1, h2]
  simp only [Bool.not_false, Bool.and_true, Bool.true_and, if_true]
  rw [hskip]
  simp only [Bool.false_eq_true, if_false]
  rw [hydrateRaw_429_long now _ _ h429 ra restLookups hne hids hskip hra]
  refine congrArg Except.ok (congrArg₂ updateHead ?_ rfl)
  funext p
  simp only [flagAbandoned]
  rw [if_pos ⟨by simp, rateLimitedMsg_ne_empty ra⟩]

/-- C1 as amended: a metrics-hydrating fetch whose pages carry no
embedded metrics and whose first secondary-lookup batch is answered 429
with retry-after exceeding 300 seconds returns normally (Except.ok) with
every fetched post present in order, hydration abandoned for all of them
(no post is marked hydrated) and every engagement count reading its
default 0 — but the False hydration flag and the reason string are
attached to the FIRST post only; the remaining posts carry no flag and no
reason at all.  The original claim (every post flagged False with a
reason) is refuted at `c1_counterexample`. -/
theorem c1_hydration_flag_first_post_only
    (k ks kt kts : String) (pages : Nat) (now : Int) (st0 : RateLimitState)
    (searchResps : List SearchResp) (h429 : RateHeaders) (ra : Int)
    (restLookups : List LookupResp)
    (hcred : ¬ (k = "" ∨ ks = "" ∨ kt = "" ∨ kts = ""))
    (hraw : ∀ r ∈ searchResps, ∀ p ∈ searchData r, rawPost p)
    (hne : (fetchPagesLoop now pages searchResps { rate := st0 }).allPosts ≠ [])
    (hids : distinctIds (fetchPagesLoop now pages searchResps { rate := st0 }).allPosts ≠ [])
    (hskip : (should_skip_metrics_fetch now
        (fetchPagesLoop now pages searchResps { rate := st0 }).rate).1 = false)
    (hra : 300 < ra) :
    (fetch_eligible_posts k ks kt kts pages true now st0 searchResps
        (LookupResp.tooMany h429 (some ra) :: restLookups)
      = .ok (updateHead (flagAbandoned (rateLimitedMsg ra))
          (fetchPagesLoop now pages searchResps { rate := st0 }).allPosts)) ∧
    ((updateHead (flagAbandoned (rateLimitedMsg ra))
        (fetchPagesLoop now pages searchResps { rate := st0 }).allPosts).map clearHydration
      = (fetchPagesLoop now pages searchResps { rate := st0 }).allPosts.map clearHydration) ∧
    (∀ p ∈ updateHead (flagAbandoned (rateLimitedMsg ra))
        (fetchPagesLoop now pages searchResps { rate := st0 }).allPosts,
      p.tweetRetweetCount.getD 0 = 0 ∧ p.tweetLikeCount.getD 0 = 0 ∧
      p.tweetReplyCount.getD 0 = 0 ∧ p.tweetQuoteCount.getD 0 = 0 ∧
      p.metricsHydrated ≠ some true) ∧
    ((updateHead (flagAbandoned (rateLimitedMsg ra))
        (fetchPagesLoop now pages searchResps { rate := st0 }).allPosts).head?.map
          (fun p => (p.metricsHydrated, p.metricsReason))
      = some (some false, some (rateLimitedMsg ra))) ∧
    (∀ p ∈ (updateHead (flagAbandoned (rateLimitedMsg ra))
        (fetchPagesLoop now pages searchResps { rate := st0 }).allPosts).tail,
      p.metricsHydrated = none ∧ p.metricsReason = none) := by
  have hAraw : ∀ p ∈ (fetchPagesLoop now pages searchResps { rate := st0 }).allPosts,
      rawPost p :=
    fetchPagesLoop_raw now pages searchResps _ hraw (by intro p hp; simp at hp)
  obtain ⟨hmap, hall, hhead, htail⟩ :=
    updateHead_flag_props _ (rateLimitedMsg ra) hAraw hne
  exact ⟨fetch_429_long_main k ks kt kts pages now st0 searchResps h429 ra restLookups
      hcred hraw hne hids hskip hra, hmap, hall, hhead, htail⟩

/-- One page of two metric-free posts, for the C1 witness and
counterexample. -/
def c1page : SearchResp := SearchResp.ok {} [{ id := "1" }, { id := "2" }] none

/-- C1 witness: the amended theorem at one concrete page of two posts and
a 429 with retry-after 400. -/
theorem c1_hydration_flag_first_post_only_witness :
    (¬ (("k" : String) = "" ∨ ("k" : String) = "" ∨ ("k" : String) = ""
        ∨ ("k" : String) = "")) ∧
    (∀ r ∈ [c1page], ∀ p ∈ searchData r, rawPost p) ∧
    ((fetchPagesLoop 0 1 [c1page] { rate := {} }).allPosts ≠ []) ∧
    (distinctIds (fetchPagesLoop 0 1 [c1page] { rate := {} }).allPosts ≠ []) ∧
    ((should_skip_metrics_fetch 0 (fetchPagesLoop 0 1 [c1page] { rate := {} }).rate).1
      = false) ∧
    ((300 : Int) < 400) ∧
    (fetch_eligible_posts "k" "k" "k" "k" 1 true 0 {} [c1page]
        [LookupResp.tooMany {} (some 400)]
      = .ok (updateHead (flagAbandoned (rateLimitedMsg 400))
          (fetchPagesLoop 0 1 [c1page] { rate := {} }).allPosts)) :=
  ⟨by decide, by decide, by decide, by decide, by decide, by decide,
   (c1_hydration_flag_first_post_only "k" "k" "k" "k" 1 0 {} [c1page] {} 400 []
      (by decide) (by decide) (by decide) (by decide) (by decide) (by decide)).1⟩

/-- C1 counterexample: in the claimed scenario (one page of two raw
posts, hydrate requested, first lookup batch answered 429 with
retry-after 400 > 300) the call returns both posts, but the second post
has metricsHydrated = none — not false — and no reason string, refuting
the claim that each fetched post gets the False flag with a reason. -/
theorem c1_counterexample :
    fetch_eligible_posts "k" "k" "k" "k" 1 true 0 {} [c1page]
        [LookupResp.tooMany {} (some 400)]
      = .ok [flagAbandoned (rateLimitedMsg 400) { id := "1" }, { id := "2" }] ∧
    (({ id := "2" } : Post).metricsHydrated ≠ some false ∧
      ({ id := "2" } : Post).metricsReason = none) :=
  ⟨rfl, by decide⟩
